import Mathlib

/-!
# Verification of the dirac-swift-api data-processing core

Shallow embedding of `src/api/processing/data_processing.py`,
`src/api/processing/metadata.py`, `src/api/processing/units.py` and
`src/api/routers/file_processing.py`, together with theorems settling the
specification claims about the typed-array codec, the range-mask query
engine, the dataset locator, metadata construction and the units converter.

Numeric scalars are modelled as rationals: every finite numpy integer or
floating-point value embeds injectively into `ℚ`, and the Python/JSON leg of
the pipeline (`tolist` → `json.dumps` → `json.loads`) transports finite
numeric values exactly, which is what working in `ℚ` records.  Non-finite
floating values (NaN, infinities) are outside the model.
-/

set_option autoImplicit false

/-- Byte order tag of a numpy dtype (`<`, `>`, `=`, `|` in `dtype.str`). -/
inductive ByteOrder where
  | little
  | big
  | native
  | notApplicable
deriving DecidableEq, Repr

/-- Element kind of a numeric numpy dtype: signed/unsigned integer or float,
with the item size in bytes. -/
inductive NumKind where
  | sInt (bytes : Nat)
  | uInt (bytes : Nat)
  | flt (bytes : Nat)
deriving DecidableEq, Repr

/-- A numpy dtype as used by the codec: a numeric kind together with a byte
order, or the object/heterogeneous kind (`"|O"`). -/
inductive DType where
  | numeric (kind : NumKind) (order : ByteOrder)
  | object
deriving DecidableEq, Repr

/-- A parsed JSON value as produced by `json.loads` on the wire text of an
array: a numeric scalar or a (possibly nested, possibly ragged) sequence. -/
inductive JVal where
  | num : ℚ → JVal
  | arr : List JVal → JVal

mutual

/-- Shape inference of `np.asarray` on a nested sequence: the shape of the
resulting array, or `none` when sibling sequences have inconsistent lengths
or inconsistent nesting depth (numpy raises `ValueError` there).  An empty
sequence has shape `[0]` (trailing dimensions are not recoverable from it,
exactly as in numpy). -/
def shapeOf : JVal → Option (List Nat)
  | .num _ => some []
  | .arr l =>
    match shapeList l with
    | none => none
    | some ss =>
      match ss with
      | [] => some [0]
      | s :: rest => if rest.all (fun t => t = s) then some ((rest.length + 1) :: s) else none

/-- Shapes of the elements of a list of nested sequences, `none` as soon as
one element is itself ill-shaped. -/
def shapeList : List JVal → Option (List (List Nat))
  | [] => some []
  | v :: vs =>
    match shapeOf v with
    | none => none
    | some s =>
      match shapeList vs with
      | none => none
      | some ss => some (s :: ss)

end

mutual

/-- Row-major flattening of a nested sequence (the element order `np.asarray`
stores and that `tolist` reads back out). -/
def flattenJ : JVal → List ℚ
  | .num q => [q]
  | .arr l => flattenList l

/-- Row-major flattening of a list of nested sequences. -/
def flattenList : List JVal → List ℚ
  | [] => []
  | v :: vs => flattenJ v ++ flattenList vs

end

/-- `ndarray.tolist` on a C-ordered array of the given shape and flat data:
rebuilds the nested-list structure mirroring the shape. -/
def buildNested : List Nat → List ℚ → JVal
  | [], d => .num (d.headD 0)
  | n :: rest, d =>
    .arr ((List.range n).map fun i => buildNested rest ((d.drop (i * rest.prod)).take rest.prod))

/-- Casting a scalar to a numeric dtype, as `np.asarray(..., dtype=...)` does:
for integer kinds, C truncation toward zero followed by a two's-complement
wrap into the kind's range; for floating kinds the cast is the identity on
this model's values (finite values exactly representable in the target kind,
which is the domain the codec claims range over — numpy's cast is the
identity there). -/
def castScalar : NumKind → ℚ → ℚ
  | .sInt b, q =>
    let t := q.num.tdiv (q.den : ℤ)
    (((t + 2 ^ (8 * b - 1)) % 2 ^ (8 * b) - 2 ^ (8 * b - 1) : ℤ) : ℚ)
  | .uInt b, q =>
    let t := q.num.tdiv (q.den : ℤ)
    ((t % 2 ^ (8 * b) : ℤ) : ℚ)
  | .flt _, q => q

/-- Precision (mantissa bits) of an IEEE floating kind of the given width. -/
def fltPrec : Nat → Nat
  | 2 => 11
  | 4 => 24
  | _ => 53

/-- Smallest usable exponent (subnormal scale) of an IEEE floating kind. -/
def fltEmin : Nat → ℤ
  | 2 => -24
  | 4 => -149
  | _ => -1074

/-- Largest usable exponent of an IEEE floating kind (scale of the top
mantissa window). -/
def fltEmax : Nat → ℤ
  | 2 => 5
  | 4 => 104
  | _ => 971

/-- The rationals exactly representable in a numeric numpy kind: integers in
range for the integer kinds (numpy integer widths are positive), values
`M * 2 ^ E` with a bounded mantissa and exponent for the floating kinds. -/
def NumKind.representable : NumKind → ℚ → Prop
  | .sInt b, q => 0 < b ∧ q.den = 1 ∧ -(2 ^ (8 * b - 1)) ≤ q.num ∧ q.num < 2 ^ (8 * b - 1)
  | .uInt b, q => 0 < b ∧ q.den = 1 ∧ 0 ≤ q.num ∧ q.num < 2 ^ (8 * b)
  | .flt b, q =>
      ∃ M E : ℤ, q = (M : ℚ) * (2 : ℚ) ^ E ∧ M.natAbs < 2 ^ fltPrec b ∧
        fltEmin b ≤ E ∧ E ≤ fltEmax b

/-- A numeric numpy array: shape, C-ordered flat data, element kind and byte
order. -/
structure NDArray where
  shape : List Nat
  data : List ℚ
  kind : NumKind
  order : ByteOrder
deriving DecidableEq, Repr

/-- The data of an `NDArray` fills its shape and every element is a value of
its dtype. -/
def NDArray.wellFormed (a : NDArray) : Prop :=
  a.data.length = a.shape.prod ∧ ∀ q ∈ a.data, a.kind.representable q

/-- A numpy array as handled by the codec: either a numeric array or an
object-dtype array, the latter carried by its nested structural content. -/
inductive PyArray where
  | numeric : NDArray → PyArray
  | obj : JVal → PyArray

/-- Well-formedness of a codec input array. -/
def PyArray.wellFormed : PyArray → Prop
  | .numeric a => a.wellFormed
  | .obj _ => True

/-- `array.dtype.str` of a codec input. -/
def PyArray.dtypeStr : PyArray → DType
  | .numeric a => .numeric a.kind a.order
  | .obj _ => .object

/-- `array.tolist()`: nested-list form of a codec input.  For an object
array the stored nested structure itself is returned. -/
def PyArray.tolist : PyArray → JVal
  | .numeric a => buildNested a.shape a.data
  | .obj v => v

/-- The wire form produced by the codec: nested values plus the dtype tag. -/
structure SerializedArray where
  array : JVal
  dtype : DType

/-- `SWIFTProcessor.generate_dict_from_ndarray`
(`data_processing.py:94-110`): returns the dictionary holding
`array.tolist()` under `"array"` and `array.dtype.str` under `"dtype"`. -/
def generate_dict_from_ndarray (array : PyArray) : SerializedArray :=
  { array := array.tolist, dtype := array.dtypeStr }

/-- Error vocabulary of the embedded code: each constructor is one Python
exception class raised (or propagated) by the embedded functions. -/
inductive PyError where
  | processorError (msg : String)
  | dataSpecException (detail : String)
  | swiftUnytException (detail : String)
  | indexError (msg : String)
deriving DecidableEq, Repr

/-- The message of the `ValueError` branch of
`SWIFTProcessor.load_ndarray_from_json`:
`f"Invalid array data for numpy.asarray(). \x7barray_value_error\x7d"`.
The numpy-supplied detail text varies by version and is modelled by a fixed
stand-in. -/
def invalidArrayDataMsg : String :=
  "Invalid array data for numpy.asarray(). inhomogeneous shape detected"

/-- `SWIFTProcessor.load_ndarray_from_json` (`data_processing.py:68-92`)
after `json.loads`: `np.asarray(loaded_json, dtype=data_type)`, with the
`ValueError` numpy raises on ragged input converted to a
`SWIFTProcessorError` whose message starts with `"Invalid array data"`.
With object dtype, numpy accepts the nested content as-is; with no dtype the
kind is inferred from the literal values (`int64` when all are integral,
`float64` otherwise). -/
def load_ndarray_from_json (json_array : JVal) (data_type : Option DType) :
    Except PyError PyArray :=
  match data_type with
  | some .object => .ok (.obj json_array)
  | some (.numeric k o) =>
    match shapeOf json_array with
    | none => .error (.processorError invalidArrayDataMsg)
    | some s => .ok (.numeric ⟨s, (flattenJ json_array).map (castScalar k), k, o⟩)
  | none =>
    match shapeOf json_array with
    | none => .error (.processorError invalidArrayDataMsg)
    | some s =>
      let flat := flattenJ json_array
      if flat.all (fun q => q.den = 1) then
        .ok (.numeric ⟨s, flat.map (castScalar (.sInt 8)), .sInt 8, .native⟩)
      else
        .ok (.numeric ⟨s, flat.map (castScalar (.flt 8)), .flt 8, .native⟩)

/-- A field stored in an HDF5 file, at the granularity the query engine
observes: the number of axes, the rows along the leading axis (each row the
flat list of its per-row components; a 1-D field has singleton rows), and
the element dtype.  Fields of more than two axes are outside the model. -/
structure Dataset where
  ndim : Nat
  rows : List (List ℚ)
  kind : NumKind
  order : ByteOrder
deriving DecidableEq, Repr

/-- HDF5 datasets are rectangular: every row has the component count of the
first row, a 1-D field has exactly one component per row, and the model
covers one- and two-axis fields. -/
def Dataset.wf (ds : Dataset) : Prop :=
  (∀ r ∈ ds.rows, r.length = (ds.rows.headD []).length) ∧
    (ds.ndim = 1 → ∀ r ∈ ds.rows, r.length = 1) ∧
    (ds.ndim = 1 ∨ ds.ndim = 2)

/-- Component count of a field (`handle[field][0].size`: the size of the
first row). -/
def Dataset.ncomp (ds : Dataset) : Nat :=
  (ds.rows.headD []).length

/-- An open HDF5 file: named datasets. -/
structure H5File where
  datasets : List (String × Dataset)

/-- `handle[field]` lookup; `none` models the `KeyError`. -/
def H5File.find? (f : H5File) (field : String) : Option Dataset :=
  (f.datasets.find? (fun kv => kv.1 = field)).map (·.2)

/-- Modelled at the interface the spec gives for the external chunked-read
primitive (`swiftsimio.accelerated.read_ranges_from_file`, an out-of-scope
collaborator): walks the mask intervals in the order supplied, writing each
selected half-open row range — projected to the selected column when one is
given — contiguously into an output buffer of exactly the requested shape
and type.  Interval order is not validated and `mask_size` is not derived;
a buffer cell the mask does not reach keeps the unspecified `np.empty`
content, modelled as `0`, and selected rows beyond the buffer are dropped. -/
def read_ranges_from_file (rows : List (List ℚ)) (ranges : List (Nat × Nat))
    (output_shape : List Nat) (output_type : NumKind) (order : ByteOrder)
    (columns : Option Nat) : NDArray :=
  let selected : List (List ℚ) := (ranges.map (fun r => (rows.drop r.1).take (r.2 - r.1))).flatten
  let gathered : List (List ℚ) :=
    match columns with
    | some j => selected.map (fun row => [row.getD j 0])
    | none => selected
  let flat := gathered.flatten
  ⟨output_shape,
    flat.take output_shape.prod ++
      List.replicate (output_shape.prod - flat.length) 0,
    output_type, order⟩

/-- Decoded mask rows reinterpreted as `[start, stop)` interval pairs, as
`read_ranges_from_file` consumes them: consecutive pairs of the flat data. -/
def maskIntervals (mask : PyArray) : List (Nat × Nat) :=
  match mask with
  | .numeric a =>
    (List.range (a.data.length / 2)).map fun i =>
      ((a.data.getD (2 * i) 0).num.toNat, (a.data.getD (2 * i + 1) 0).num.toNat)
  | .obj _ => []

/-- `SWIFTProcessor.get_array_masked` (`data_processing.py:112-168`): decode
the mask (a falsy `mask_json` — `None` or the empty string — raises
`SWIFTProcessorError "No mask provided!"` first), open the file, probe the
field's first row for dtype and component count (`KeyError` on a missing
field becomes `SWIFTProcessorError` naming field and file; `handle[field][0]`
on a zero-row field raises an uncaught `IndexError`), choose the output
shape — `(mask_size, output_size)` when `output_size != 1` and no column
selector was supplied, else `mask_size` — and delegate to
`read_ranges_from_file`. -/
def get_array_masked (file : H5File) (filename field : String)
    (mask_json : Option JVal) (mask_data_type : Option DType)
    (mask_size : Nat) (columns : Option Nat) : Except PyError NDArray :=
  match mask_json with
  | none => .error (.processorError "No mask provided!")
  | some mj =>
    match load_ndarray_from_json mj mask_data_type with
    | .error e => .error e
    | .ok mask =>
      match file.find? field with
      | none =>
        .error (.processorError ("Field " ++ field ++ " not found in " ++ filename ++ "."))
      | some ds =>
        match ds.rows.head? with
        | none => .error (.indexError "index 0 is out of bounds")
        | some first_value =>
          let output_size := first_value.length
          let output_shape :=
            if output_size ≠ 1 ∧ columns = none then [mask_size, output_size]
            else [mask_size]
          .ok (read_ranges_from_file ds.rows (maskIntervals mask) output_shape
            ds.kind ds.order columns)

/-- `SWIFTProcessor.get_array_unmasked` (`data_processing.py:170-203`): open
the file and read the whole field — `handle[field][:, columns]` when the
field has more than one axis (an out-of-range column raises an uncaught
`IndexError`), `handle[field][:]` otherwise, so a 1-D field ignores the
column selector; a missing field's `KeyError` is caught, logged, and `None`
is returned. -/
def get_array_unmasked (file : H5File) (field : String) (columns : Option Nat) :
    Except PyError (Option NDArray) :=
  match file.find? field with
  | none => .ok none
  | some ds =>
    if 1 < ds.ndim then
      match columns with
      | none => .ok (some ⟨[ds.rows.length, ds.ncomp], ds.rows.flatten, ds.kind, ds.order⟩)
      | some j =>
        if j < ds.ncomp then
          .ok (some ⟨[ds.rows.length], ds.rows.map (fun r => r.getD j 0), ds.kind, ds.order⟩)
        else .error (.indexError "column index out of range")
    else .ok (some ⟨[ds.rows.length], ds.rows.flatten, ds.kind, ds.order⟩)

/-- The output C2 asserts for a masked read, written from the claim's words:
`(maskSize, componentCount)` when the field's first row has more than one
component and no column selector is supplied, `(maskSize,)` in every other
case. -/
def claimedMaskedShape (ds : Dataset) (mask_size : Nat) (columns : Option Nat) :
    List Nat :=
  if 1 < ds.ncomp ∧ columns = none then [mask_size, ds.ncomp] else [mask_size]

/-- The result C3 asserts for an unmasked read with a column selector,
written from the claim's words: the 1-D projection of the selected component
over every row, whatever the field's dimensionality; undefined (`none`) when
the field has no such component. -/
def claimedColumnProjection (ds : Dataset) (j : Nat) : Option NDArray :=
  if j < ds.ncomp then
    some ⟨[ds.rows.length], ds.rows.map (fun r => r.getD j 0), ds.kind, ds.order⟩
  else none

/-- `dict.get` on the alias→path table. -/
def lookupAlias (m : List (String × String)) (a : String) : Option String :=
  (m.find? (fun kv => kv.1 = a)).map (·.2)

/-- `SWIFTProcessor.retrieve_filename` (`data_processing.py:48-66`): a falsy
alias (`None` or the empty string, Python truthiness) returns `None` without
touching the table; otherwise the alias is looked up and a falsy mapped
value (missing key, or a key mapped to the empty string) raises
`SWIFTProcessorError "Dataset alias not found in dataset map."`. -/
def retrieve_filename (data_alias_map : List (String × String))
    (dataset_alias : Option String) : Except PyError (Option String) :=
  match dataset_alias with
  | none => .ok none
  | some a =>
    if a = "" then .ok none
    else
      match lookupAlias data_alias_map a with
      | none => .error (.processorError "Dataset alias not found in dataset map.")
      | some p =>
        if p = "" then .error (.processorError "Dataset alias not found in dataset map.")
        else .ok (some p)

/-- The request body fields shared by every data spec
(`file_processing.py:21-31`). -/
structure SWIFTBaseDataSpec where
  aliasName : Option String
  filename : Option String

/-- `get_file_path` (`file_processing.py:134-164`): a truthy `filename` is
used as-is, otherwise the alias is resolved through
`SWIFTProcessor.retrieve_filename` (whose `SWIFTProcessorError`
propagates); a still-missing path raises `SWIFTDataSpecException` with
detail `"SWIFT filename or file alias not found."`, and a path absent from
the backing store (`Path(file_path).exists()`, supplied here as a
predicate) raises `SWIFTDataSpecException` naming the attempted path. -/
def get_file_path (data_spec : SWIFTBaseDataSpec)
    (data_alias_map : List (String × String))
    (pathExists : String → Bool) : Except PyError String :=
  let resolved : Except PyError (Option String) :=
    match data_spec.filename with
    | some f => if f = "" then retrieve_filename data_alias_map data_spec.aliasName else .ok (some f)
    | none => retrieve_filename data_alias_map data_spec.aliasName
  match resolved with
  | .error e => .error e
  | .ok none => .error (.dataSpecException "SWIFT filename or file alias not found.")
  | .ok (some p) =>
    if pathExists p then .ok p
    else .error (.dataSpecException ("SWIFT filename not found at the provided path: " ++ p ++ "."))

/-- A units object (`RemoteSWIFTUnits` or `swiftsimio`'s `SWIFTUnits`) at
the granularity `create_swift_metadata` observes it: whether a `_handle`
attribute exists and, when it does, whether it currently holds a live
resource handle (identified by a number) or the inert `None`, plus the
opaque unit content. -/
structure UnitsObj where
  handleAttr : Option (Option Nat)
  content : List (String × String)
deriving DecidableEq, Repr

/-- The metadata object `swiftsimio.reader.SWIFTMetadata(filename, units)`
constructs, modelled at that external constructor's interface: the header
data derived from the file (opaque here) and the units object it was
handed.  Its only resource-handle-bearing attribute is the units object's
`_handle` (the repository's own test
`test_create_swift_metadata_success` pickles the constructed object after
the single `_handle` scrub, so no other live handle survives in it). -/
structure MetadataObj where
  filename : String
  units : UnitsObj
deriving DecidableEq, Repr

/-- The steps of `create_swift_metadata`'s body in program order. -/
inductive MetaStep where
  | construct
  | scrub
  | encode
deriving DecidableEq, Repr

/-- Does the object (transitively) hold a live resource handle? -/
def holdsLiveHandle (m : MetadataObj) : Bool :=
  match m.units.handleAttr with
  | some (some _) => true
  | _ => false

/-- The scrub statement of `create_swift_metadata`
(`metadata.py:74-75`): `if hasattr(metadata.units, "_handle"):
metadata.units._handle = None`. -/
def scrubHandle (m : MetadataObj) : MetadataObj :=
  match m.units.handleAttr with
  | some _ => { m with units := { m.units with handleAttr := some none } }
  | none => m

/-- `cloudpickle.dumps`, modelled as an injective encoding: the pickled
bytes are identified with the value they encode. -/
def cloudpickle_dumps (m : MetadataObj) : MetadataObj := m

/-- The body of `create_swift_metadata` (`metadata.py:56-82`, underneath its
`functools.lru_cache` wrapper): construct `SWIFTMetadata(filename, units)`,
run the `_handle` scrub statement once, then pickle.  Returns the pickled
result together with the trace of steps performed, in order. -/
def create_swift_metadata_body (filename : String) (units : UnitsObj) :
    MetadataObj × List MetaStep :=
  let metadata := MetadataObj.mk filename units
  let scrubbed := scrubHandle metadata
  (cloudpickle_dumps scrubbed, [.construct, .scrub, .encode])

/-- The key `functools.lru_cache` stores a call under: the `filename`
argument and the identity of the `units` argument (`RemoteSWIFTUnits`
defines neither `__eq__` nor `__hash__`, so the cache compares that argument
by object identity, carried here as a numeric object id). -/
abbrev MetaCacheKey := String × Nat

/-- The process-global state `functools.lru_cache(maxsize=128)` keeps for
`create_swift_metadata`: the memoized entries, most recently used first. -/
structure LruCache where
  entries : List (MetaCacheKey × MetadataObj)
deriving DecidableEq, Repr

/-- `create_swift_metadata` (`metadata.py:56-82`) as the process observes
it: the body wrapped in `functools.lru_cache(maxsize=128)`.  A hit returns
the memoized pickle and moves its key to the front; a miss runs the body,
stores the result, and evicts beyond 128 entries.  Returns the result, the
updated cache state, and how many times the body was run by this call. -/
def create_swift_metadata (cache : LruCache) (filename : String)
    (units : UnitsObj) (unitsId : Nat) : MetadataObj × LruCache × Nat :=
  let key : MetaCacheKey := (filename, unitsId)
  match (cache.entries.find? (fun kv => kv.1 = key)).map (·.2) with
  | some cached =>
    (cached, ⟨(key, cached) :: cache.entries.filter (fun kv => kv.1 ≠ key)⟩, 0)
  | none =>
    let result := (create_swift_metadata_body filename units).1
    (result, ⟨(key, result) :: cache.entries.take 127⟩, 1)

/-- A value stored in a units dictionary: a `unyt_quantity` (identified by
its `to_string` form), an already-converted string, or a nested
sub-dictionary. -/
inductive UVal where
  | quantity (s : String)
  | str (s : String)
  | subdict (entries : List (String × UVal))

/-- The entries of a Python dictionary of unit values, in insertion order. -/
abbrev DictEntries := List (String × UVal)

/-- A heap of dictionary objects; a reference is an index into it.  Python
dictionaries are mutable objects passed by reference, and the in-place
behaviour of `convert_swift_units_dict_types` is only expressible against
such a store. -/
structure PyHeap where
  objs : List DictEntries

/-- `unyt_quantity.to_string()` applied when the value is a quantity,
leaving every other value untouched (`isinstance(..., unyt_quantity)`
guard). -/
def stringifyVal : UVal → UVal
  | .quantity s => .str s
  | v => v

/-- Update every value of a dictionary through a key-aware function,
leaving the key sequence unchanged (the shape of a Python loop that only
assigns `d[key] = ...`). -/
def mapVals (h : String → UVal → UVal) (e : DictEntries) : DictEntries :=
  e.map fun kv => (kv.1, h kv.1 kv.2)

/-- Value lookup in dictionary entries (`d[k]` / `k in d`). -/
def lookupD (e : DictEntries) (k : String) : Option UVal :=
  (e.find? (fun kv => kv.1 = k)).map (·.2)

/-- One iteration's first statement: `if isinstance(d[key], unyt_quantity):
d[key] = d[key].to_string()` for the current outer key. -/
def convertTopKey (e : DictEntries) (key : String) : DictEntries :=
  mapVals (fun k v => if k = key then stringifyVal v else v) e

/-- The effect of the inner loop on the `units` value: every quantity in the
sub-dictionary stringified; any other kind of value is left as it stands. -/
def unitsStringify : UVal → UVal
  | .subdict u => .subdict (u.map fun p => (p.1, stringifyVal p.2))
  | v => v

/-- One iteration's inner loop: `for unit in d["units"]: if
isinstance(d["units"][unit], unyt_quantity): d["units"][unit] = ...`, which
stringifies every quantity in the `units` sub-dictionary.  A missing
`"units"` key raises `KeyError`; iterating a non-dictionary `units` value
raises `TypeError`-like failures, modelled as an uncaught `indexError`. -/
def convertUnitsAll (e : DictEntries) : Except PyError DictEntries :=
  match lookupD e "units" with
  | none => .error (.swiftUnytException "'units'")
  | some (.subdict _) =>
    .ok (mapVals (fun k v => if k = "units" then unitsStringify v else v) e)
  | some _ => .error (.indexError "units value is not iterable as a mapping")

/-- The outer `for key in swift_units_dict` loop of
`convert_swift_units_dict_types`, iterating over the dictionary's keys in
order (the loop only replaces values, so the key sequence is fixed at
entry). -/
def convertLoop : List String → DictEntries → Except PyError DictEntries
  | [], e => .ok e
  | k :: rest, e =>
    match convertUnitsAll (convertTopKey e k) with
    | .error err => .error err
    | .ok e2 => convertLoop rest e2

/-- `convert_swift_units_dict_types` (`units.py:67-99`) over the heap model:
mutates the dictionary the reference points to — stringifying every
top-level `unyt_quantity` and, on each pass, every quantity in the `units`
sub-dictionary — and returns the same reference.  The `KeyError` of a
missing `units` key (only reachable when the dictionary is non-empty) is
re-raised as `SWIFTUnytException` with the stringified error as detail;
the heap state at exception time is not tracked. -/
def convert_swift_units_dict_types (heap : PyHeap) (ref : Nat) :
    Except PyError (PyHeap × Nat) :=
  match heap.objs.get? ref with
  | none => .error (.indexError "dangling reference")
  | some d =>
    match convertLoop (d.map (·.1)) d with
    | .error e => .error e
    | .ok d2 => .ok (⟨heap.objs.set ref d2⟩, ref)

/-- The dictionary contents C10 asserts after the call: every top-level
quantity stringified and, inside the `units` sub-dictionary, every quantity
stringified; everything else untouched. -/
def specConverted (d : DictEntries) : DictEntries :=
  mapVals (fun k v =>
    if k = "units" then unitsStringify (stringifyVal v) else stringifyVal v) d

/-- Shapes that the nested-list wire form determines completely: an axis of
length zero may only occur as the last axis.  An earlier zero axis makes
`tolist` produce an empty sequence, from which `np.asarray` cannot recover
the trailing axes. -/
def shapeFaithful : List Nat → Prop
  | [] => True
  | n :: rest => (rest = [] ∨ n ≠ 0) ∧ shapeFaithful rest

/-- `shapeFaithful` lifted to a codec input (object arrays carry their
structure verbatim, so nothing is required of them). -/
def PyArray.shapeRecoverable : PyArray → Prop
  | .numeric a => shapeFaithful a.shape
  | .obj _ => True

/-- The immediate subsequences of a nested JSON value. -/
def JVal.children : JVal → List JVal
  | .num _ => []
  | .arr l => l

/-- All nodes of a nested JSON value at a given nesting depth. -/
def levelOf (v : JVal) : Nat → List JVal
  | 0 => [v]
  | n + 1 => (levelOf v n).flatMap JVal.children

/-- Two sequences at the same nesting depth have inconsistent lengths. -/
def raggedLevel (l : List JVal) : Prop :=
  ∃ xs ys : List JVal, JVal.arr xs ∈ l ∧ JVal.arr ys ∈ l ∧ xs.length ≠ ys.length

/-- Ragged data in the sense of C6: at some nesting depth, sibling
sequences have inconsistent lengths. -/
def specRagged (v : JVal) : Prop :=
  ∃ d : Nat, raggedLevel (levelOf v d)

/-- A well-formed float32 array of shape `(0, 3)`: its `tolist` is `[]`,
from which the decoder can only recover shape `(0,)`. -/
def c1BadArray : PyArray :=
  .numeric ⟨[0, 3], [], .flt 4, .little⟩

/-- A well-formed float32 array of shape `(3, 1)` with exactly
representable values, used to witness the round trip. -/
def c1GoodArray : PyArray :=
  .numeric ⟨[3, 1], [337, 1/2, 355], .flt 4, .little⟩

/-- The ragged decode input of the spec's example:
`[[337.0], [234.1, 233.1], [355.1]]`. -/
def c6RaggedInput : JVal :=
  .arr [.arr [.num 337], .arr [.num 234.1, .num 233.1], .arr [.num 355.1]]

/-- A two-axis field whose rows have zero components (HDF5 shape `(1, 0)`),
so that `handle[field][0]` has `size == 0`. -/
def c2ZeroCompDataset : Dataset :=
  ⟨2, [[]], .flt 8, .little⟩

/-- A file holding only the zero-component field. -/
def c2ZeroCompFile : H5File :=
  ⟨[("f", c2ZeroCompDataset)]⟩

/-- A two-component field with three rows, for the masked-shape witness. -/
def c2TwoCompDataset : Dataset :=
  ⟨2, [[1, 2], [3, 4], [5, 6]], .flt 8, .little⟩

/-- A file holding the two-component field. -/
def c2TwoCompFile : H5File :=
  ⟨[("f", c2TwoCompDataset)]⟩

/-- The wire mask `[[0, 1]]`. -/
def pairMaskJson : JVal :=
  .arr [.arr [.num 0, .num 1]]

/-- The dtype tag `"<i8"`. -/
def int64LE : DType :=
  .numeric (.sInt 8) .little

/-- A one-axis field of three scalar rows. -/
def c3OneDimDataset : Dataset :=
  ⟨1, [[10], [20], [30]], .flt 8, .little⟩

/-- A file holding only the one-axis field. -/
def c3File : H5File :=
  ⟨[("f", c3OneDimDataset)]⟩

/-- The alias table of the repository's test fixtures, as a concrete
instance. -/
def demoAliasMap : List (String × String) :=
  [("test_file", "/data/cosmo_volume_example.hdf5")]

/-- A units object whose `_handle` attribute currently holds a live
handle. -/
def demoUnits : UnitsObj :=
  ⟨some (some 7), [("mass", "1e+10 kg")]⟩

/-- First metadata call on an empty cache. -/
def c5FirstCall : MetadataObj × LruCache × Nat :=
  create_swift_metadata ⟨[]⟩ "/data/cosmo_volume_example.hdf5" demoUnits 7

/-- Second metadata call, identical arguments, on the state the first call
left behind. -/
def c5SecondCall : MetadataObj × LruCache × Nat :=
  create_swift_metadata c5FirstCall.2.1 "/data/cosmo_volume_example.hdf5" demoUnits 7

/-- A concrete units dictionary for the in-place conversion witness. -/
def c10Dict : DictEntries :=
  [("filename", .str "/a/test/file/path"),
   ("units", .subdict [("mass", .quantity "1e+10 kg"), ("length", .str "1 Mpc")]),
   ("mass", .quantity "1e+10 Msun")]

/-- A heap holding only the witness dictionary, at reference `0`. -/
def c10Heap : PyHeap :=
  ⟨[c10Dict]⟩

theorem shapeList_length {l : List JVal} {ss : List (List Nat)}
    (h : shapeList l = some ss) : ss.length = l.length := by
  induction l generalizing ss with
  | nil =>
    simp only [shapeList, Option.some_inj] at h
    subst h; rfl
  | cons v vs ih =>
    rw [shapeList] at h
    cases hv : shapeOf v with
    | none => rw [hv] at h; cases h
    | some s =>
      rw [hv] at h
      cases hvs : shapeList vs with
      | none => rw [hvs] at h; cases h
      | some ss2 =>
        rw [hvs] at h
        cases h
        simp [ih hvs]

theorem shapeList_forall {l : List JVal} {ss : List (List Nat)}
    (h : shapeList l = some ss) (s0 : List Nat) (hss : ∀ t ∈ ss, t = s0) :
    ∀ v ∈ l, shapeOf v = some s0 := by
  induction l generalizing ss with
  | nil => intro v hv; cases hv
  | cons v vs ih =>
    rw [shapeList] at h
    cases hv : shapeOf v with
    | none => rw [hv] at h; cases h
    | some s =>
      rw [hv] at h
      cases hvs : shapeList vs with
      | none => rw [hvs] at h; cases h
      | some ss2 =>
        rw [hvs] at h
        cases h
        intro w hw
        rcases List.mem_cons.mp hw with rfl | hw2
        · rw [hv, hss s (List.mem_cons_self _ _)]
        · exact ih hvs (fun t ht => hss t (List.mem_cons_of_mem _ ht)) w hw2

theorem shapeOf_arr_inv {l : List JVal} {s : List Nat}
    (h : shapeOf (.arr l) = some s) :
    ∃ s0, s = l.length :: s0 ∧ ∀ v ∈ l, shapeOf v = some s0 := by
  rw [shapeOf] at h
  cases hl : shapeList l with
  | none => rw [hl] at h; cases h
  | some ss =>
    rw [hl] at h
    cases ss with
    | nil =>
      cases h
      have : l = [] := by
        have := shapeList_length hl
        exact List.length_eq_zero.mp this.symm
      subst this
      exact ⟨[], rfl, by intro v hv; cases hv⟩
    | cons s1 rest =>
      have h' : (if (rest.all fun t => decide (t = s1)) = true
          then some ((rest.length + 1) :: s1) else none) = some s := h
      by_cases hall : (rest.all fun t => decide (t = s1)) = true
      · rw [if_pos hall] at h'
        cases h'
        have hlen := shapeList_length hl
        simp only [List.length_cons] at hlen
        refine ⟨s1, by rw [← hlen], ?_⟩
        refine shapeList_forall hl s1 ?_
        intro t ht
        rcases List.mem_cons.mp ht with rfl | ht2
        · rfl
        · have := List.all_eq_true.mp hall t ht2
          exact of_decide_eq_true this
      · rw [if_neg hall] at h'
        cases h' 

theorem shapeList_of_forall {l : List JVal} (s0 : List Nat)
    (h : ∀ v ∈ l, shapeOf v = some s0) :
    shapeList l = some (l.map fun _ => s0) := by
  induction l with
  | nil => rfl
  | cons v vs ih =>
    rw [shapeList, h v (List.mem_cons_self _ _),
      ih (fun w hw => h w (List.mem_cons_of_mem _ hw))]
    rfl

theorem shapeOf_buildNested (s : List Nat) (d : List ℚ) (hs : shapeFaithful s) :
    shapeOf (buildNested s d) = some s := by
  induction s generalizing d with
  | nil => rfl
  | cons n rest ih =>
    obtain ⟨hn, hrest⟩ := hs
    rw [buildNested, shapeOf]
    have hch : ∀ v ∈ (List.range n).map
        (fun i => buildNested rest ((d.drop (i * rest.prod)).take rest.prod)),
        shapeOf v = some rest := by
      intro v hv
      obtain ⟨i, _, rfl⟩ := List.mem_map.mp hv
      exact ih _ hrest
    rw [shapeList_of_forall rest hch]
    cases n with
    | zero =>
      rcases hn with hnil | hzero
      · subst hnil; rfl
      · exact absurd rfl hzero
    | succ m =>
      simp only [List.map_const', List.length_map, List.length_range,
        List.replicate_succ]
      have hall : ((List.replicate m rest).all fun t => decide (t = rest)) = true := by
        simp [List.all_eq_true, List.mem_replicate]
      rw [if_pos hall]
      simp

theorem flattenList_eq (l : List JVal) : flattenList l = (l.map flattenJ).flatten := by
  induction l with
  | nil => rfl
  | cons v vs ih => rw [flattenList, ih]; rfl

theorem range_chunks_flatten (p : Nat) :
    ∀ (n : Nat) (d : List ℚ), d.length = n * p →
      ((List.range n).map fun i => (d.drop (i * p)).take p).flatten = d := by
  intro n
  induction n with
  | zero =>
    intro d hd
    simp only [Nat.zero_mul, List.length_eq_zero] at hd
    subst hd; rfl
  | succ m ih =>
    intro d hd
    rw [List.range_succ_eq_map, List.map_cons, List.map_map, List.flatten_cons]
    have h1 : (List.range m).map
          ((fun i => (d.drop (i * p)).take p) ∘ Nat.succ)
        = (List.range m).map (fun i => (((d.drop p).drop (i * p)).take p)) := by
      refine List.map_congr_left (fun i _ => ?_)
      simp only [Function.comp_apply, List.drop_drop, Nat.succ_mul, Nat.mul_succ,
        Nat.add_comm, Nat.mul_comm]
    have h2 : (d.drop p).length = m * p := by
      rw [List.length_drop, hd]
      have hx : (m + 1) * p = m * p + p := by ring
      omega
    rw [h1, ih (d.drop p) h2]
    simp

theorem flattenJ_buildNested (s : List Nat) (d : List ℚ) (hd : d.length = s.prod) :
    flattenJ (buildNested s d) = d := by
  induction s generalizing d with
  | nil =>
    obtain ⟨a, rfl⟩ := List.length_eq_one.mp (by simpa using hd)
    rfl
  | cons n rest ih =>
    rw [buildNested, flattenJ, flattenList_eq, List.map_map]
    rw [List.prod_cons] at hd
    have h1 : (List.range n).map
          (flattenJ ∘ fun i => buildNested rest ((d.drop (i * rest.prod)).take rest.prod))
        = (List.range n).map (fun i => (d.drop (i * rest.prod)).take rest.prod) := by
      refine List.map_congr_left (fun i hi => ?_)
      have hi' : i < n := List.mem_range.mp hi
      refine ih _ ?_
      rw [List.length_take, List.length_drop, hd]
      have hle : (i + 1) * rest.prod ≤ n * rest.prod :=
        Nat.mul_le_mul_right _ (Nat.succ_le_of_lt hi')
      have : (i + 1) * rest.prod = i * rest.prod + rest.prod := by ring
      omega
    rw [h1]
    exact range_chunks_flatten rest.prod n d hd

theorem castScalar_representable {k : NumKind} {q : ℚ} (h : k.representable q) :
    castScalar k q = q := by
  cases k with
  | sInt b =>
    obtain ⟨hb, hden, hlo, hhi⟩ := h
    have h8 : 8 * b - 1 + 1 = 8 * b := by omega
    have hpow : (2 : ℤ) ^ (8 * b) = 2 ^ (8 * b - 1) * 2 := by
      rw [← pow_succ, h8]
    rw [castScalar]
    simp only [hden, Nat.cast_one, Int.tdiv_one]
    have hmod : (q.num + 2 ^ (8 * b - 1)) % 2 ^ (8 * b) = q.num + 2 ^ (8 * b - 1) := by
      refine Int.emod_eq_of_lt (by omega) ?_
      rw [hpow]
      omega
    rw [hmod]
    simp only [add_sub_cancel_right]
    rw [← Rat.num_div_den q, hden]
    simp
  | uInt b =>
    obtain ⟨hb, hden, hlo, hhi⟩ := h
    rw [castScalar]
    simp only [hden, Nat.cast_one, Int.tdiv_one]
    rw [Int.emod_eq_of_lt hlo hhi]
    rw [← Rat.num_div_den q, hden]
    simp
  | flt b => rfl

/-- C1 (amended): for every well-formed array of a supported numeric kind
and byte order whose shape has no zero-length axis followed by further axes
(and for every object-dtype array), decoding the encoder's output with the
encoder's dtype reproduces the array exactly — shape, values, kind and byte
order. -/
theorem codec_roundtrip (x : PyArray) (h : x.wellFormed) (hs : x.shapeRecoverable) :
    load_ndarray_from_json (generate_dict_from_ndarray x).array
      (some (generate_dict_from_ndarray x).dtype) = .ok x := by
  cases x with
  | obj v => rfl
  | numeric a =>
    obtain ⟨hlen, hrep⟩ := h
    have hs' : shapeFaithful a.shape := hs
    show load_ndarray_from_json (buildNested a.shape a.data)
      (some (.numeric a.kind a.order)) = _
    rw [load_ndarray_from_json, shapeOf_buildNested _ _ hs',
      flattenJ_buildNested _ _ hlen]
    have hmap : a.data.map (castScalar a.kind) = a.data.map id :=
      List.map_congr_left (fun q hq => castScalar_representable (hrep q hq))
    rw [hmap, List.map_id]

/-- C1 witness: the float32 array `[[337.0], [0.5], [355.0]]` of shape
`(3, 1)` is well formed, has a recoverable shape, and round-trips. -/
theorem codec_roundtrip_witness :
    c1GoodArray.wellFormed ∧ c1GoodArray.shapeRecoverable ∧
    load_ndarray_from_json (generate_dict_from_ndarray c1GoodArray).array
      (some (generate_dict_from_ndarray c1GoodArray).dtype) = .ok c1GoodArray := by
  have hwf : c1GoodArray.wellFormed := by
    refine ⟨rfl, ?_⟩
    intro q hq
    have hmem : q = 337 ∨ q = 1/2 ∨ q = 355 := by
      simpa [c1GoodArray] using hq
    rcases hmem with rfl | rfl | rfl
    · exact ⟨337, 0, by norm_num, by decide, by decide, by decide⟩
    · exact ⟨1, -1, by norm_num, by decide, by decide, by decide⟩
    · exact ⟨355, 0, by norm_num, by decide, by decide, by decide⟩
  have hsr : c1GoodArray.shapeRecoverable := by
    simp [c1GoodArray, PyArray.shapeRecoverable, shapeFaithful]
  exact ⟨hwf, hsr, codec_roundtrip c1GoodArray hwf hsr⟩

/-- C1 counterexample: the well-formed float32 array of shape `(0, 3)`
encodes to the nested list `[]`, which decodes to an array of shape `(0,)`,
not `(0, 3)` — the round trip does not reproduce the shape. -/
theorem codec_roundtrip_counterexample :
    c1BadArray.wellFormed ∧
    c1BadArray = .numeric ⟨[0, 3], [], .flt 4, .little⟩ ∧
    load_ndarray_from_json (generate_dict_from_ndarray c1BadArray).array
        (some (generate_dict_from_ndarray c1BadArray).dtype) =
      .ok (.numeric ⟨[0], [], .flt 4, .little⟩) ∧
    ([0] : List Nat) ≠ [0, 3] := by
  refine ⟨⟨rfl, ?_⟩, rfl, rfl, by decide⟩
  intro q hq
  exact absurd hq (List.not_mem_nil q)

theorem shapeOf_child {u t : JVal} {r : List Nat}
    (hu : shapeOf u = some r) (ht : t ∈ u.children) : shapeOf t = some r.tail := by
  cases u with
  | num q => cases ht
  | arr l =>
    obtain ⟨s0, rfl, hall⟩ := shapeOf_arr_inv hu
    simpa using hall t ht

theorem mem_levelOf_shape {v : JVal} {s : List Nat} (hv : shapeOf v = some s) :
    ∀ (d : Nat), ∀ t ∈ levelOf v d, shapeOf t = some (s.drop d) := by
  intro d
  induction d with
  | zero =>
    intro t ht
    simp only [levelOf, List.mem_singleton] at ht
    subst ht
    simpa using hv
  | succ n ih =>
    intro t ht
    rw [levelOf] at ht
    obtain ⟨u, hu, htu⟩ := List.mem_flatMap.mp ht
    have hc := shapeOf_child (ih u hu) htu
    rwa [List.tail_drop] at hc

theorem specRagged_shapeOf {v : JVal} (h : specRagged v) : shapeOf v = none := by
  obtain ⟨d, xs, ys, hxs, hys, hne⟩ := h
  cases hs : shapeOf v with
  | none => rfl
  | some s =>
    exfalso
    have h1 := mem_levelOf_shape hs d _ hxs
    have h2 := mem_levelOf_shape hs d _ hys
    obtain ⟨s1, he1, _⟩ := shapeOf_arr_inv h1
    obtain ⟨s2, he2, _⟩ := shapeOf_arr_inv h2
    have hcons : xs.length :: s1 = ys.length :: s2 := he1.symm.trans he2
    exact hne (List.cons.inj hcons).1

/-- C6: decoding nested sequences in which sibling sequences at the same
nesting depth have inconsistent lengths fails, under any numeric dtype, with
a `SWIFTProcessorError` whose message starts with `"Invalid array data"`;
under the object dtype the ragged content is accepted as-is and returned as
an object array. -/
theorem ragged_decode (v : JVal) (k : NumKind) (o : ByteOrder) (h : specRagged v) :
    load_ndarray_from_json v (some (.numeric k o)) =
      .error (.processorError invalidArrayDataMsg) ∧
    "Invalid array data".toList <+: invalidArrayDataMsg.toList ∧
    load_ndarray_from_json v (some .object) = .ok (.obj v) := by
  refine ⟨?_, by decide, rfl⟩
  rw [load_ndarray_from_json, specRagged_shapeOf h]

/-- C6 witness: the spec's ragged example `[[337.0], [234.1, 233.1],
[355.1]]` is ragged, fails under the float32 dtype with the
"Invalid array data" error, and decodes as-is under the object dtype. -/
theorem ragged_decode_witness :
    specRagged c6RaggedInput ∧
    load_ndarray_from_json c6RaggedInput (some (.numeric (.flt 4) .little)) =
      .error (.processorError invalidArrayDataMsg) ∧
    load_ndarray_from_json c6RaggedInput (some .object) = .ok (.obj c6RaggedInput) := by
  have hr : specRagged c6RaggedInput := by
    refine ⟨1, [.num 337], [.num 234.1, .num 233.1], ?_, ?_, by simp⟩
    · simp [levelOf, JVal.children, c6RaggedInput]
    · simp [levelOf, JVal.children, c6RaggedInput]
  exact ⟨hr, (ragged_decode c6RaggedInput (.flt 4) .little hr).1,
    (ragged_decode c6RaggedInput (.flt 4) .little hr).2.2⟩

/-- C2 (amended): for every masked read over a present, non-empty field
with a decodable mask, the returned array has shape
`(mask_size, componentCount)` exactly when the first row's component count
is different from one and no column selector is supplied, and `(mask_size,)`
in every other case; `mask_size` is the caller-declared value, used as
supplied and not derived from the mask intervals. -/
theorem masked_shape (file : H5File) (filename field : String) (mj : JVal)
    (mdt : Option DType) (mask_size : Nat) (columns : Option Nat)
    (ds : Dataset) (first : List ℚ) (mask : PyArray)
    (h1 : file.find? field = some ds) (h2 : ds.rows.head? = some first)
    (h3 : load_ndarray_from_json mj mdt = .ok mask) :
    ∃ arr : NDArray,
      get_array_masked file filename field (some mj) mdt mask_size columns = .ok arr ∧
      arr.shape = (if first.length ≠ 1 ∧ columns = none
        then [mask_size, first.length] else [mask_size]) := by
  simp only [get_array_masked, h3, h1, h2]
  exact ⟨_, rfl, rfl⟩

/-- C2 witness: a masked read of one row from a two-component field with no
column selector yields shape `(1, 2)`. -/
theorem masked_shape_witness :
    ∃ arr : NDArray,
      get_array_masked c2TwoCompFile "/data/f.hdf5" "f" (some pairMaskJson)
          (some int64LE) 1 none = .ok arr ∧
      arr.shape = [1, 2] := by
  obtain ⟨arr, ha, hs⟩ :=
    masked_shape c2TwoCompFile "/data/f.hdf5" "f" pairMaskJson (some int64LE) 1 none
      c2TwoCompDataset [1, 2] (.numeric ⟨[1, 2], [0, 1], .sInt 8, .little⟩)
      rfl rfl rfl
  exact ⟨arr, ha, by simpa using hs⟩

/-- C2 counterexample: a masked read over a field whose rows have zero
components, with no column selector, returns shape `(5, 0)`, whereas the
claim — conditioned on "more than one component" — predicts `(5,)`. -/
theorem masked_shape_counterexample :
    get_array_masked c2ZeroCompFile "/data/f.hdf5" "f" (some pairMaskJson)
        (some int64LE) 5 none =
      .ok ⟨[5, 0], [], .flt 8, .little⟩ ∧
    claimedMaskedShape c2ZeroCompDataset 5 none = [5] ∧
    ([5, 0] : List Nat) ≠ [5] := by
  refine ⟨rfl, ?_, by decide⟩
  simp [claimedMaskedShape, c2ZeroCompDataset, Dataset.ncomp]

/-- C3 (amended): with a column selector supplied, an unmasked read of a
field of more than one axis returns the 1-D projection of the selected
in-range component over every row; a 1-D field ignores the selector and
returns the full 1-D array (which equals the component-0 projection only).
-/
theorem unmasked_columns (file : H5File) (field : String) (ds : Dataset) (j : Nat)
    (h1 : file.find? field = some ds) :
    (1 < ds.ndim → j < ds.ncomp →
      get_array_unmasked file field (some j) =
        .ok (some ⟨[ds.rows.length], ds.rows.map (fun r => r.getD j 0),
          ds.kind, ds.order⟩)) ∧
    (ds.ndim = 1 → ∀ c : Option Nat,
      get_array_unmasked file field c =
        .ok (some ⟨[ds.rows.length], ds.rows.flatten, ds.kind, ds.order⟩)) := by
  constructor
  · intro hdim hj
    simp only [get_array_unmasked, h1, if_pos hdim, if_pos hj]
  · intro hdim c
    have hn : ¬ 1 < ds.ndim := by omega
    simp only [get_array_unmasked, h1, if_neg hn]

/-- C3 witness: column 0 of the two-component field projects to `[1, 3, 5]`;
the 1-D field with selector 1 returns its full contents `[10, 20, 30]`. -/
theorem unmasked_columns_witness :
    get_array_unmasked c2TwoCompFile "f" (some 0) =
      .ok (some ⟨[3], [1, 3, 5], .flt 8, .little⟩) ∧
    get_array_unmasked c3File "f" (some 1) =
      .ok (some ⟨[3], [10, 20, 30], .flt 8, .little⟩) := by
  constructor
  · exact (unmasked_columns c2TwoCompFile "f" c2TwoCompDataset 0 rfl).1
      (by decide) (by decide)
  · exact (unmasked_columns c3File "f" c3OneDimDataset 1 rfl).2 rfl (some 1)

/-- C3 counterexample: on the 1-D field `[10, 20, 30]` with column selector
1, the code returns the full array, while the claimed column-1 projection
does not exist; the result differs from the claim's prescription. -/
theorem unmasked_columns_counterexample :
    get_array_unmasked c3File "f" (some 1) =
      .ok (some ⟨[3], [10, 20, 30], .flt 8, .little⟩) ∧
    claimedColumnProjection c3OneDimDataset 1 = none ∧
    get_array_unmasked c3File "f" (some 1) ≠
      .ok (claimedColumnProjection c3OneDimDataset 1) := by
  refine ⟨rfl, rfl, ?_⟩
  intro h
  rw [show get_array_unmasked c3File "f" (some 1) =
      .ok (some ⟨[3], [10, 20, 30], .flt 8, .little⟩) from rfl,
    show claimedColumnProjection c3OneDimDataset 1 = none from rfl] at h
  simp at h

/-- C4 (amended): on a field absent from the file, a masked read (with a
decodable mask) fails with a `SWIFTProcessorError` whose message names both
the field and the file path, returning no array; an unmasked read does not
raise — it logs and returns `None`, and likewise returns no array. -/
theorem field_not_found (file : H5File) (filename field : String) (mj : JVal)
    (mdt : Option DType) (mask_size : Nat) (columns : Option Nat) (mask : PyArray)
    (h1 : file.find? field = none) (h3 : load_ndarray_from_json mj mdt = .ok mask) :
    get_array_masked file filename field (some mj) mdt mask_size columns =
      .error (.processorError
        ("Field " ++ field ++ " not found in " ++ filename ++ ".")) ∧
    field.toList <:+:
      ("Field " ++ field ++ " not found in " ++ filename ++ ".").toList ∧
    filename.toList <:+:
      ("Field " ++ field ++ " not found in " ++ filename ++ ".").toList ∧
    get_array_unmasked file field columns = .ok none := by
  refine ⟨?_, ?_, ?_, ?_⟩
  · simp only [get_array_masked, h3, h1]
  · refine ⟨"Field ".toList, (" not found in " ++ filename ++ ".").toList, ?_⟩
    simp [String.toList]
  · refine ⟨("Field " ++ field ++ " not found in ").toList, ".".toList, ?_⟩
    simp [String.toList]
  · simp only [get_array_unmasked, h1]

/-- C4 witness: the masked read on the absent field `"ghost"` fails with the
message naming field and path; the unmasked read returns `None`. -/
theorem field_not_found_witness :
    get_array_masked c3File "/data/f.hdf5" "ghost" (some pairMaskJson)
        (some int64LE) 4 none =
      .error (.processorError "Field ghost not found in /data/f.hdf5.") ∧
    get_array_unmasked c3File "ghost" none = .ok none := by
  have h := field_not_found c3File "/data/f.hdf5" "ghost" pairMaskJson
    (some int64LE) 4 none (.numeric ⟨[1, 2], [0, 1], .sInt 8, .little⟩) rfl rfl
  exact ⟨h.1, h.2.2.2⟩

/-- C4 counterexample: an unmasked read on an absent field does not fail
with any error — it returns `None` — contradicting the claim that every
read on a missing field fails with a `FieldNotFound` error. -/
theorem field_not_found_counterexample :
    get_array_unmasked c3File "missing" none = .ok none ∧
    (get_array_unmasked c3File "missing" none).isOk = true :=
  ⟨rfl, rfl⟩

/-- C5 counterexample: two metadata calls with the same path and the same
units object construct only once — the second call performs zero
constructions and returns the memoized pickle, consulting the
process-global `lru_cache` state the first call created. -/
theorem metadata_cache_counterexample :
    c5FirstCall.2.2 = 1 ∧ c5SecondCall.2.2 = 0 ∧ c5SecondCall.1 = c5FirstCall.1 :=
  ⟨rfl, rfl, rfl⟩

/-- C5 (amended): `create_swift_metadata` is wrapped in
`functools.lru_cache(maxsize=128)`, keyed on the path and the units
argument's object identity: from any cache state, repeating a call with the
same arguments performs zero constructions and returns the first call's
result from the memoized state. -/
theorem metadata_cache_memoizes (st : LruCache) (filename : String)
    (units : UnitsObj) (unitsId : Nat) :
    (create_swift_metadata (create_swift_metadata st filename units unitsId).2.1
        filename units unitsId).2.2 = 0 ∧
    (create_swift_metadata (create_swift_metadata st filename units unitsId).2.1
        filename units unitsId).1 =
      (create_swift_metadata st filename units unitsId).1 := by
  cases hfind : (st.entries.find? (fun kv => kv.1 = (filename, unitsId))).map (·.2) with
  | some cached => simp [create_swift_metadata, hfind]
  | none => simp [create_swift_metadata, hfind]

/-- C7 counterexample: resolving the missing alias
`"a_nonexistant_alias"` raises `SWIFTProcessorError` with the fixed message
"Dataset alias not found in dataset map.", which does not contain the
alias. -/
theorem locator_alias_counterexample :
    retrieve_filename demoAliasMap (some "a_nonexistant_alias") =
      .error (.processorError "Dataset alias not found in dataset map.") ∧
    ¬ ("a_nonexistant_alias".toList <:+:
        "Dataset alias not found in dataset map.".toList) :=
  ⟨rfl, by decide⟩

/-- C7 (amended): a data spec with a non-empty explicit path resolves to
that path as-is, for every alias value and alias table (no alias lookup);
a non-empty alias absent from the table raises `SWIFTProcessorError` with
the fixed message "Dataset alias not found in dataset map.", which does not
carry the alias. -/
theorem locator_resolution (m : List (String × String)) (a f : String)
    (pathExists : String → Bool) (hf : f ≠ "") (he : pathExists f = true)
    (ha : a ≠ "") (hmiss : lookupAlias m a = none) :
    (∀ al : Option String, get_file_path ⟨al, some f⟩ m pathExists = .ok f) ∧
    retrieve_filename m (some a) =
      .error (.processorError "Dataset alias not found in dataset map.") := by
  constructor
  · intro al
    simp [get_file_path, hf, he]
  · simp [retrieve_filename, ha, hmiss]

/-- C7 witness: an explicit path wins over a present alias and is returned
as-is; the missing alias `"nope"` raises the fixed-message error. -/
theorem locator_resolution_witness :
    get_file_path ⟨some "ignored_alias", some "/data/explicit.hdf5"⟩ demoAliasMap
        (fun _ => true) = .ok "/data/explicit.hdf5" ∧
    retrieve_filename demoAliasMap (some "nope") =
      .error (.processorError "Dataset alias not found in dataset map.") := by
  have h := locator_resolution demoAliasMap "nope" "/data/explicit.hdf5"
    (fun _ => true) (by decide) rfl (by decide) rfl
  exact ⟨h.1 (some "ignored_alias"), h.2⟩

/-- C8: `create_swift_metadata`'s body runs the handle-scrub statement
exactly once, after construction and strictly before pickling (the trace is
construct, scrub, encode), and the object handed to the encoder holds no
live resource handle. -/
theorem metadata_scrub (filename : String) (units : UnitsObj) :
    holdsLiveHandle (create_swift_metadata_body filename units).1 = false ∧
    (create_swift_metadata_body filename units).2.count MetaStep.scrub = 1 ∧
    (create_swift_metadata_body filename units).2 =
      [.construct, .scrub, .encode] := by
  refine ⟨?_, rfl, rfl⟩
  cases h : units.handleAttr with
  | none =>
    simp [create_swift_metadata_body, cloudpickle_dumps, scrubHandle,
      holdsLiveHandle, h]
  | some v =>
    simp [create_swift_metadata_body, cloudpickle_dumps, scrubHandle,
      holdsLiveHandle, h]

/-- C9: a falsy alias returns `None` rather than raising; with an alias
table mapping no alias to an empty path, an error is raised only for a
non-`None`, non-empty alias absent from the table; and a data spec with
neither filename nor alias is rejected at the boundary with the distinct
`SWIFTDataSpecException` "SWIFT filename or file alias not found.", which
is not the locator's `SWIFTProcessorError`. -/
theorem retrieve_filename_none_total (m : List (String × String))
    (hm : ∀ kv ∈ m, kv.2 ≠ "") :
    retrieve_filename m none = .ok none ∧
    (∀ (a : Option String) (e : PyError), retrieve_filename m a = .error e →
      ∃ s, a = some s ∧ s ≠ "" ∧ lookupAlias m s = none) ∧
    (∀ pathExists : String → Bool,
      get_file_path ⟨none, none⟩ m pathExists =
        .error (.dataSpecException "SWIFT filename or file alias not found.")) ∧
    (∀ msg, (PyError.dataSpecException "SWIFT filename or file alias not found.")
      ≠ .processorError msg) := by
  refine ⟨rfl, ?_, fun _ => rfl, fun msg h => PyError.noConfusion h⟩
  intro a e h
  cases a with
  | none => simp [retrieve_filename] at h
  | some s =>
    by_cases hs : s = ""
    · subst hs
      simp [retrieve_filename] at h
    · refine ⟨s, rfl, hs, ?_⟩
      rw [retrieve_filename, if_neg hs] at h
      cases hl : lookupAlias m s with
      | none => rfl
      | some p =>
        exfalso
        rw [hl] at h
        have hfind : ∃ kv, m.find? (fun kv => kv.1 = s) = some kv ∧ kv.2 = p := by
          unfold lookupAlias at hl
          cases hf : m.find? (fun kv => kv.1 = s) with
          | none => rw [hf] at hl; cases hl
          | some kv => rw [hf] at hl; exact ⟨kv, rfl, by simpa using hl⟩
        obtain ⟨kv, hf, hkv⟩ := hfind
        have hp : p ≠ "" := hkv ▸ hm kv (List.mem_of_find?_eq_some hf)
        have h2 : (if p = ""
            then Except.error (PyError.processorError
              "Dataset alias not found in dataset map.")
            else Except.ok (some p)) = Except.error e := h
        rw [if_neg hp] at h2
        simp at h2

/-- C9 witness: on the demo alias table, a `None` alias yields `None`, and
the empty data spec is rejected with the boundary's distinct message. -/
theorem retrieve_filename_none_total_witness :
    retrieve_filename demoAliasMap none = .ok none ∧
    get_file_path ⟨none, none⟩ demoAliasMap (fun _ => true) =
      .error (.dataSpecException "SWIFT filename or file alias not found.") := by
  have h := retrieve_filename_none_total demoAliasMap (by
    intro kv hkv
    simp [demoAliasMap] at hkv
    subst hkv
    decide)
  exact ⟨h.1, h.2.2.1 (fun _ => true)⟩

theorem stringifyVal_stringifyVal (v : UVal) :
    stringifyVal (stringifyVal v) = stringifyVal v := by
  cases v <;> rfl

theorem unitsStringify_stringifyVal (v : UVal) :
    unitsStringify (stringifyVal v) = stringifyVal (unitsStringify v) := by
  cases v <;> rfl

theorem unitsStringify_unitsStringify (v : UVal) :
    unitsStringify (unitsStringify v) = unitsStringify v := by
  cases v with
  | subdict u =>
    simp only [unitsStringify, List.map_map]
    congr 1
    refine List.map_congr_left (fun p _ => ?_)
    simp [stringifyVal_stringifyVal]
  | quantity s => rfl
  | str s => rfl

theorem mapVals_mapVals (g h : String → UVal → UVal) (e : DictEntries) :
    mapVals g (mapVals h e) = mapVals (fun k v => g k (h k v)) e := by
  simp only [mapVals, List.map_map]
  rfl

theorem mapVals_congr {f g : String → UVal → UVal} (e : DictEntries)
    (h : ∀ k v, f k v = g k v) : mapVals f e = mapVals g e := by
  unfold mapVals
  exact List.map_congr_left (fun kv _ => by rw [h])

theorem lookupD_mapVals (h : String → UVal → UVal) (e : DictEntries) (k : String) :
    lookupD (mapVals h e) k = (lookupD e k).map (h k) := by
  induction e with
  | nil => rfl
  | cons kv rest ih =>
    by_cases hk : kv.1 = k
    · simp [lookupD, mapVals, List.find?_cons, hk]
    · simpa [lookupD, mapVals, List.find?_cons, hk] using ih

theorem convertStep_eq (e : DictEntries) (k : String) (u : List (String × UVal))
    (hu : lookupD e "units" = some (.subdict u)) :
    convertUnitsAll (convertTopKey e k) =
      .ok (mapVals (fun k' v =>
        if k' = "units" then unitsStringify (if k' = k then stringifyVal v else v)
        else (if k' = k then stringifyVal v else v)) e) := by
  have hlook : lookupD (convertTopKey e k) "units" = some (.subdict u) := by
    rw [convertTopKey, lookupD_mapVals, hu]
    by_cases huk : "units" = k <;> simp [huk, stringifyVal]
  have hstep : convertUnitsAll (convertTopKey e k) =
      .ok (mapVals (fun k' v => if k' = "units" then unitsStringify v else v)
        (convertTopKey e k)) := by
    rw [convertUnitsAll, hlook]
  rw [hstep, convertTopKey, mapVals_mapVals]

theorem convertLoop_eq (keys : List String) (e : DictEntries)
    (u : List (String × UVal))
    (hu : lookupD e "units" = some (.subdict u)) (hk : keys ≠ []) :
    convertLoop keys e = .ok (mapVals (fun k v =>
      if k = "units" then unitsStringify (if k ∈ keys then stringifyVal v else v)
      else (if k ∈ keys then stringifyVal v else v)) e) := by
  induction keys generalizing e u with
  | nil => exact absurd rfl hk
  | cons k rest ih =>
    rw [convertLoop, convertStep_eq e k u hu]
    by_cases hrest : rest = ([] : List String)
    · subst hrest
      exact congrArg Except.ok (mapVals_congr e (fun k' v => by
        by_cases hC : k' = "units" <;> by_cases hB : k' = k <;> simp [hC, hB]))
    · have hu2 : lookupD (mapVals (fun k' v =>
          if k' = "units" then unitsStringify (if k' = k then stringifyVal v else v)
          else (if k' = k then stringifyVal v else v)) e) "units" =
          some (.subdict (u.map fun p => (p.1, stringifyVal p.2))) := by
        rw [lookupD_mapVals, hu]
        by_cases huk : "units" = k <;> simp [huk, stringifyVal, unitsStringify]
      have hcomp : mapVals (fun k' v =>
            if k' = "units" then unitsStringify (if k' ∈ rest then stringifyVal v else v)
            else (if k' ∈ rest then stringifyVal v else v))
          (mapVals (fun k' v =>
            if k' = "units" then unitsStringify (if k' = k then stringifyVal v else v)
            else (if k' = k then stringifyVal v else v)) e) =
          mapVals (fun k' v =>
            if k' = "units" then unitsStringify (if k' ∈ k :: rest then stringifyVal v else v)
            else (if k' ∈ k :: rest then stringifyVal v else v)) e := by
        rw [mapVals_mapVals]
        refine mapVals_congr e (fun k' v => ?_)
        by_cases hC : k' = "units"
        · subst hC
          by_cases hB : ("units" : String) = k
          · subst hB
            by_cases hA : ("units" : String) ∈ rest <;>
              simp [hA, stringifyVal_stringifyVal,
                unitsStringify_unitsStringify, unitsStringify_stringifyVal]
          · by_cases hA : ("units" : String) ∈ rest <;>
              simp [hA, hB, stringifyVal_stringifyVal,
                unitsStringify_unitsStringify, unitsStringify_stringifyVal]
        · by_cases hB : k' = k
          · subst hB
            by_cases hA : k' ∈ rest <;>
              simp [hA, hC, stringifyVal_stringifyVal,
                unitsStringify_unitsStringify, unitsStringify_stringifyVal]
          · by_cases hA : k' ∈ rest <;>
              simp [hA, hB, hC, stringifyVal_stringifyVal,
                unitsStringify_unitsStringify, unitsStringify_stringifyVal]
      exact (ih _ _ hu2 hrest).trans (congrArg Except.ok hcomp)

/-- C10: `convert_swift_units_dict_types` mutates its argument in place:
for every heap and every dictionary reference whose dictionary holds a
`units` sub-mapping, the call succeeds returning the very same reference
(not a copy), and the heap cell that reference points to now holds the
dictionary with every top-level `unyt_quantity` and every quantity inside
the nested `units` sub-mapping replaced by its string form. -/
theorem convert_units_in_place (heap : PyHeap) (ref : Nat) (d : DictEntries)
    (u : List (String × UVal))
    (h1 : heap.objs.get? ref = some d)
    (h2 : lookupD d "units" = some (.subdict u)) :
    convert_swift_units_dict_types heap ref =
      .ok (⟨heap.objs.set ref (specConverted d)⟩, ref) := by
  have hne : d.map (·.1) ≠ [] := by
    intro hnil
    have hd : d = [] := List.map_eq_nil_iff.mp hnil
    rw [hd] at h2
    cases h2
  simp only [convert_swift_units_dict_types, h1]
  rw [convertLoop_eq _ _ u h2 hne]
  have hspec : mapVals (fun k v =>
      if k = "units" then unitsStringify (if k ∈ d.map (·.1) then stringifyVal v else v)
      else (if k ∈ d.map (·.1) then stringifyVal v else v)) d = specConverted d := by
    unfold mapVals specConverted
    refine List.map_congr_left (fun kv hkv => ?_)
    have hmem : kv.1 ∈ d.map (·.1) := List.mem_map_of_mem _ hkv
    beta_reduce
    by_cases hC : kv.1 = "units"
    · rw [if_pos hC, if_pos hC, if_pos hmem]
    · rw [if_neg hC, if_neg hC, if_pos hmem]
  exact congrArg
    (fun x => Except.ok (PyHeap.mk (heap.objs.set ref x), ref)) hspec

/-- C10 witness: converting the demo heap at reference 0 succeeds, returns
reference 0 itself, and the referenced cell now holds the dictionary with
both quantities stringified and everything else untouched. -/
theorem convert_units_in_place_witness :
    convert_swift_units_dict_types c10Heap 0 =
      .ok (⟨[specConverted c10Dict]⟩, 0) ∧
    specConverted c10Dict =
      [("filename", .str "/a/test/file/path"),
       ("units", .subdict [("mass", .str "1e+10 kg"), ("length", .str "1 Mpc")]),
       ("mass", .str "1e+10 Msun")] := by
  refine ⟨?_, rfl⟩
  exact convert_units_in_place c10Heap 0 c10Dict
    [("mass", .quantity "1e+10 kg"), ("length", .str "1 Mpc")] rfl rfl
